import Mathlib

/-!
Shallow embedding of the UTXO selection / transaction construction engine of
`src/src/core/transaction_manager.cpp` (interface in
`src/include/cardano_iot/core/transaction_manager.h`).

Modelling conventions:
* C++ `uint64_t` / `size_t` values are `Nat`; every arithmetic operation that
  the C++ code performs on 64-bit unsigned integers is followed by `% M`
  (`M = 2^64`), so wraparound behaviour is preserved exactly.
* `std::map<std::string, uint64_t>` is an association list
  `List (String × Nat)` with unique keys; lookup of an absent key yields the
  default value `0`, matching `operator[]` value-initialisation.
* The non-deterministic pieces (the `std::shuffle` of the `RANDOM` strategy)
  are passed in as an explicit `shuffle` function; theorems assume only that
  it permutes its input, which is all `std::shuffle` guarantees.
* `std::sort` is an unspecified (unstable) comparison sort; the embedding uses
  an insertion sort with the very same comparator.  All theorems below are
  independent of the order produced, so any comparator-consistent order gives
  the same results.
* Logging, mutexes, timestamps-from-the-clock, random transaction ids and the
  statistics counters have no effect on the properties treated here; clock
  values are explicit `now` parameters, the mock network verdict of
  `submit_to_network` is an explicit `accepted : Bool` parameter.
-/

namespace CardanoIoT

/-- `2^64`, the modulus of C++ `uint64_t` / 64-bit `size_t` arithmetic. -/
def M : Nat := 18446744073709551616

/-- C++ unsigned 64-bit subtraction `a - b` (wraps modulo `2^64`). -/
def sub64 (a b : Nat) : Nat := (a + M - b) % M

/-- `TransactionStatus` from `transaction_manager.h`. -/
inductive TransactionStatus where
  | PENDING
  | SUBMITTED
  | CONFIRMED
  | FAILED
  | CANCELLED
deriving DecidableEq, Repr

/-- `UTXOSelectionStrategy` from `transaction_manager.h`. -/
inductive UTXOSelectionStrategy where
  | LARGEST_FIRST
  | SMALLEST_FIRST
  | RANDOM
  | OPTIMAL_FEE
deriving DecidableEq, Repr

/-- `UTXO` from `transaction_manager.h` (datum_hash / script_ref omitted:
they never participate in value accounting). -/
structure UTXO where
  tx_hash : String
  output_index : Nat
  amount_lovelace : Nat
  address : String
  native_tokens : List (String × Nat)
deriving DecidableEq, Repr

/-- `TransactionInput` from `transaction_manager.h`. -/
structure TransactionInput where
  tx_hash : String
  output_index : Nat
  utxo_info : UTXO
deriving DecidableEq, Repr

/-- `TransactionOutput` from `transaction_manager.h` (datum / script_ref
omitted: never set by the builder). -/
structure TransactionOutput where
  address : String
  amount_lovelace : Nat
  native_tokens : List (String × Nat)
deriving DecidableEq, Repr

/-- `FeeParameters` from `transaction_manager.h`, with the source's default
member initialisers. -/
structure FeeParameters where
  min_fee_a : Nat := 155381
  min_fee_b : Nat := 44
  max_tx_size : Nat := 16384
  key_deposit : Nat := 2000000
  pool_deposit : Nat := 500000000
  min_utxo : Nat := 1000000
deriving DecidableEq, Repr

/-- The default-constructed `FeeParameters{}` installed by `initialize`. -/
def defaultFeeParameters : FeeParameters := {}

/-- The value-accounting part of `Transaction` from `transaction_manager.h`
(id, type, timestamps, witnesses and cbor strings carry no value and are
omitted). -/
structure Transaction where
  inputs : List TransactionInput
  outputs : List TransactionOutput
  fee : Nat
deriving DecidableEq, Repr

/-- Lookup in a string-keyed `uint64_t` map; absent keys read as `0`
(`std::map::operator[]` value-initialisation). -/
def lookupToken : List (String × Nat) → String → Nat
  | [], _ => 0
  | kv :: rest, k => if kv.1 = k then kv.2 else lookupToken rest k

/-- `accumulated_tokens[token] += amount` on a `uint64_t`-valued map:
update the entry in place, or create it from the default `0`. -/
def addToken : List (String × Nat) → String → Nat → List (String × Nat)
  | [], k, v => [(k, v % M)]
  | kv :: rest, k, v =>
    if kv.1 = k then (k, (kv.2 + v) % M) :: rest else kv :: addToken rest k v

/-- The inner loop `for (const auto &[token, amount] : utxo.native_tokens)
accumulated_tokens[token] += amount;` of `select_utxos_impl`. -/
def addTokens (ts : List (String × Nat)) (us : List (String × Nat)) :
    List (String × Nat) :=
  us.foldl (fun acc kv => addToken acc kv.1 kv.2) ts

/-- Folding a whole list of UTXOs' token maps into an accumulator. -/
def addTokensOfUtxos (ts : List (String × Nat)) (l : List UTXO) :
    List (String × Nat) :=
  l.foldl (fun acc u => addTokens acc u.native_tokens) ts

/-- The `tokens_sufficient` check of `select_utxos_impl`: every required
token amount is covered by the accumulated amounts. -/
def tokensSufficient (accTok : List (String × Nat))
    (required : List (String × Nat)) : Bool :=
  required.all fun kv => decide (kv.2 ≤ lookupToken accTok kv.1)

/-- Mathematical (non-wrapping) sum of the base values of a UTXO list. -/
def baseSum (l : List UTXO) : Nat :=
  (l.map (fun u => u.amount_lovelace)).sum

/-- Mathematical sum of a given asset over a UTXO list. -/
def tokensSum (l : List UTXO) (k : String) : Nat :=
  (l.map (fun u => lookupToken u.native_tokens k)).sum

/-- The accumulation loop of `select_utxos_impl` (lines 214-246): push each
candidate, accumulate base value and tokens in `uint64_t` arithmetic, and
break as soon as both the ADA target and every required token amount are
covered. -/
def selectLoop (target : Nat) (required : List (String × Nat)) :
    List UTXO → Nat → List (String × Nat) → List UTXO
  | [], _, _ => []
  | u :: rest, acc, accTok =>
    let acc1 := (acc + u.amount_lovelace) % M
    let accTok1 := addTokens accTok u.native_tokens
    if target ≤ acc1 ∧ tokensSufficient accTok1 required then [u]
    else u :: selectLoop target required rest acc1 accTok1

/-- Insertion of `u` into a list according to a boolean "comes before"
comparator (used to model the `std::sort` calls of `select_utxos_impl`;
the claims below hold for every comparator-consistent order). -/
def insertSorted (before : UTXO → UTXO → Bool) (u : UTXO) :
    List UTXO → List UTXO
  | [] => [u]
  | v :: rest =>
    if before u v then u :: v :: rest else v :: insertSorted before u rest

/-- Comparison sort by a boolean comparator (insertion sort). -/
def sortBy (before : UTXO → UTXO → Bool) : List UTXO → List UTXO
  | [] => []
  | u :: rest => insertSorted before u (sortBy before rest)

/-- The strategy dispatch of `select_utxos_impl` (lines 177-212):
`LARGEST_FIRST` / `OPTIMAL_FEE` sort by `a.amount_lovelace >
b.amount_lovelace`, `SMALLEST_FIRST` sorts ascending, `RANDOM` applies the
(externally supplied) shuffle. -/
def sortCandidates (strategy : UTXOSelectionStrategy)
    (shuffle : List UTXO → List UTXO) (candidates : List UTXO) : List UTXO :=
  match strategy with
  | .LARGEST_FIRST =>
    sortBy (fun a b => decide (b.amount_lovelace < a.amount_lovelace)) candidates
  | .SMALLEST_FIRST =>
    sortBy (fun a b => decide (a.amount_lovelace < b.amount_lovelace)) candidates
  | .RANDOM => shuffle candidates
  | .OPTIMAL_FEE =>
    sortBy (fun a b => decide (b.amount_lovelace < a.amount_lovelace)) candidates

/-- `TransactionManager::Impl::select_utxos_impl` (lines 167-249). -/
def select_utxos_impl (strategy : UTXOSelectionStrategy)
    (shuffle : List UTXO → List UTXO) (available_utxos : List UTXO)
    (target_amount : Nat) (required_tokens : List (String × Nat)) :
    List UTXO :=
  selectLoop target_amount required_tokens
    (sortCandidates strategy shuffle available_utxos) 0 []

/-- `TransactionManager::select_utxos` (lines 933-939): dispatches to
`select_utxos_impl` with the configured strategy. -/
def select_utxos (strategy : UTXOSelectionStrategy)
    (shuffle : List UTXO → List UTXO) (available_utxos : List UTXO)
    (target_amount : Nat) (required_tokens : List (String × Nat)) :
    List UTXO :=
  select_utxos_impl strategy shuffle available_utxos target_amount required_tokens

/-- `TransactionManager::Impl::estimate_transaction_size` (lines 116-125),
in `size_t` (64-bit) arithmetic. -/
def estimate_transaction_size (num_inputs num_outputs metadata_size : Nat) :
    Nat :=
  let base_size := 200
  let input_size := num_inputs * 150 % M
  let output_size := num_outputs * 100 % M
  let witness_size := num_inputs * 100 % M
  (base_size + input_size + output_size + witness_size + metadata_size) % M

/-- `TransactionManager::estimate_fee` (lines 703-710):
`min_fee_a + min_fee_b * tx_size` in `uint64_t` arithmetic. -/
def estimate_fee (p : FeeParameters)
    (num_inputs num_outputs metadata_size : Nat) : Nat :=
  let tx_size := estimate_transaction_size num_inputs num_outputs metadata_size
  (p.min_fee_a + p.min_fee_b * tx_size % M) % M

/-- Modelled from the spec (section 4.2): `size_bytes = base_overhead +
num_inputs*input_cost + num_outputs*output_cost + num_inputs*witness_cost +
metadata_byte_length` with the source's per-item costs, as a `u64`
quantity.  Written from the spec's words, to be compared with
`estimate_transaction_size` above. -/
def spec_size_bytes (num_inputs num_outputs metadata_size : Nat) : Nat :=
  (200 + num_inputs * 150 + num_outputs * 100 + num_inputs * 100 +
    metadata_size) % M

/-- Modelled from the spec (section 4.2): `fee = fee_const_a + fee_const_b *
size_bytes` as a `u64` quantity.  Written from the spec's words, to be
compared with `estimate_fee` above. -/
def spec_fee (p : FeeParameters)
    (num_inputs num_outputs metadata_size : Nat) : Nat :=
  (p.min_fee_a + p.min_fee_b * spec_size_bytes num_inputs num_outputs
    metadata_size) % M

/-- The deterministic core of `TransactionManager::create_payment_transaction`
(lines 432-482), starting from the UTXO list obtained for `from_address`
(the `get_utxos` / `refresh_utxos` round-trip of lines 424-430 is modelled
by passing that list in as `utxos`).  Returns `none` exactly where the C++
returns `nullptr`.  Bookkeeping fields (tx id, timestamps, ttl, type,
status, device id) carry no value and are not modelled. -/
def create_payment_transaction (p : FeeParameters)
    (strategy : UTXOSelectionStrategy) (shuffle : List UTXO → List UTXO)
    (utxos : List UTXO) (from_address to_address : String)
    (amount_lovelace : Nat) : Option Transaction :=
  let selected_utxos :=
    select_utxos strategy shuffle utxos ((amount_lovelace + 200000) % M) []
  if selected_utxos.isEmpty then none
  else
    let inputs := selected_utxos.map fun u =>
      TransactionInput.mk u.tx_hash u.output_index u
    let total_input :=
      selected_utxos.foldl (fun s u => (s + u.amount_lovelace) % M) 0
    let fee := estimate_fee p inputs.length 2 0
    let payment_output : TransactionOutput :=
      ⟨to_address, amount_lovelace, []⟩
    let change := sub64 (sub64 total_input amount_lovelace) fee
    let outputs :=
      if p.min_utxo < change then
        [payment_output, ⟨from_address, change, []⟩]
      else [payment_output]
    some ⟨inputs, outputs, fee⟩

/-- Sum of the base values referenced by a transaction's inputs (each input
carries its UTXO snapshot, as in the source). -/
def inputBaseSum (l : List TransactionInput) : Nat :=
  (l.map (fun i => i.utxo_info.amount_lovelace)).sum

/-- Sum of the base values of a transaction's outputs. -/
def outputBaseSum (l : List TransactionOutput) : Nat :=
  (l.map (fun o => o.amount_lovelace)).sum

/-- Sum of a given asset over a transaction's inputs. -/
def inputTokenSum (l : List TransactionInput) (k : String) : Nat :=
  (l.map (fun i => lookupToken i.utxo_info.native_tokens k)).sum

/-- Sum of a given asset over a transaction's outputs. -/
def outputTokenSum (l : List TransactionOutput) (k : String) : Nat :=
  (l.map (fun o => lookupToken o.native_tokens k)).sum

/-- A stored transaction record — the fields of `Transaction` that the
lifecycle operations (`submit_transaction`, `cancel_transaction`,
`get_transaction_status`) read or write. -/
structure TxRecord where
  status : TransactionStatus
  submitted_timestamp : Nat
  confirmed_timestamp : Nat
  error_message : String
deriving DecidableEq, Repr

/-- The `transactions_` table (`std::map<std::string, unique_ptr<Transaction>>`)
as an association list with unique keys. -/
def TxTable := List (String × TxRecord)

/-- `transactions_.find(tx_id)`. -/
def tableLookup : List (String × TxRecord) → String → Option TxRecord
  | [], _ => none
  | kv :: rest, k => if kv.1 = k then some kv.2 else tableLookup rest k

/-- `transactions_[tx_id] = ...`: replace the entry if present, insert
otherwise. -/
def tableInsert : List (String × TxRecord) → String → TxRecord →
    List (String × TxRecord)
  | [], k, v => [(k, v)]
  | kv :: rest, k, v =>
    if kv.1 = k then (k, v) :: rest else kv :: tableInsert rest k v

/-- In-place mutation of the record found under `k` (the
`it->second->... = ...` pattern). -/
def tableUpdate (t : List (String × TxRecord)) (k : String)
    (f : TxRecord → TxRecord) : List (String × TxRecord) :=
  t.map fun kv => if kv.1 = k then (kv.1, f kv.2) else kv

/-- `TransactionManager::submit_transaction` (lines 741-790) on the
initialized path: store a copy of the transaction with status `SUBMITTED`
and the current time, then ask the (mock) network; on rejection
(`submit_to_network` returned the empty string, modelled by `accepted =
false`) mark the stored copy `FAILED` with the fixed message.  Returns the
same result string as the C++ (`tx_id` on success, `""` on failure) paired
with the new table. -/
def submit_transaction (table : List (String × TxRecord)) (tx_id : String)
    (tx : TxRecord) (now : Nat) (accepted : Bool) :
    String × List (String × TxRecord) :=
  let stored : TxRecord :=
    { tx with status := .SUBMITTED, submitted_timestamp := now }
  let table1 := tableInsert table tx_id stored
  if accepted then (tx_id, table1)
  else
    ("", tableUpdate table1 tx_id fun r =>
      { r with status := .FAILED, error_message := "Network submission failed" })

/-- `TransactionManager::cancel_transaction` (lines 792-807): only a stored
`PENDING` transaction becomes `CANCELLED`; every other case returns `false`
and leaves the table untouched. -/
def cancel_transaction (table : List (String × TxRecord)) (tx_id : String) :
    Bool × List (String × TxRecord) :=
  match tableLookup table tx_id with
  | some r =>
    if r.status = .PENDING then
      (true, tableUpdate table tx_id fun r0 => { r0 with status := .CANCELLED })
    else (false, table)
  | none => (false, table)

/-- `TransactionManager::Impl::check_confirmation` (lines 149-164):
`now - submitted_timestamp > 30`, computed in `uint64_t` (the stored
timestamp is `uint64_t`, so the usual arithmetic conversions make the
subtraction unsigned). -/
def check_confirmation (table : List (String × TxRecord)) (tx_id : String)
    (now : Nat) : Bool :=
  match tableLookup table tx_id with
  | some r => decide (30 < sub64 now r.submitted_timestamp)
  | none => false

/-- `TransactionManager::get_transaction_status` (lines 809-831): a found
`SUBMITTED` transaction is promoted to `CONFIRMED` once
`check_confirmation` holds, and the (possibly updated) status is returned;
an unknown id yields `FAILED`. -/
def get_transaction_status (table : List (String × TxRecord))
    (tx_id : String) (now : Nat) :
    TransactionStatus × List (String × TxRecord) :=
  match tableLookup table tx_id with
  | some r =>
    if r.status = .SUBMITTED then
      if check_confirmation table tx_id now then
        (.CONFIRMED, tableUpdate table tx_id fun r0 =>
          { r0 with status := .CONFIRMED, confirmed_timestamp := now })
      else (r.status, table)
    else (r.status, table)
  | none => (.FAILED, table)

/-- Concrete UTXO used in the conservation counterexample: 1.2 ADA carrying
7 units of the asset "policy1.token1". -/
def cexUtxoTok : UTXO := ⟨"hash1", 0, 1200000, "addr_from", [("policy1.token1", 7)]⟩

/-- Concrete UTXO used in the insufficient-funds / underflow inputs:
0.1 ADA, no tokens. -/
def cexUtxoSmall : UTXO := ⟨"hash2", 0, 100000, "addr_from", []⟩

/-- Concrete UTXOs used in witnesses. -/
def wUtxoA : UTXO := ⟨"hashA", 0, 20, "addr_w", []⟩

def wUtxoB : UTXO := ⟨"hashB", 1, 5, "addr_w", []⟩

/-- A 12-ADA UTXO for the conservation witness. -/
def wUtxoBig : UTXO := ⟨"hashW", 0, 12000000, "addr_w", []⟩

/-- The transaction that `create_payment_transaction` builds from
`[wUtxoBig]` for a 1-ADA payment under default fee parameters:
one input of 12000000, payment output 1000000, change output
12000000 - 1000000 - 183981 = 10816019, fee 183981. -/
def wTx : Transaction :=
  ⟨[⟨"hashW", 0, wUtxoBig⟩],
    [⟨"addr_to", 1000000, []⟩, ⟨"addr_w", 10816019, []⟩], 183981⟩

/-! ### Helper lemmas -/

lemma estimate_fee_eq (p : FeeParameters) (i o m : Nat) :
    estimate_fee p i o m =
      (p.min_fee_a + p.min_fee_b *
        ((200 + i * 150 + o * 100 + i * 100 + m) % M)) % M := by
  have hsize : estimate_transaction_size i o m =
      (200 + i * 150 + o * 100 + i * 100 + m) % M := by
    simp only [estimate_transaction_size, M]
    omega
  simp only [estimate_fee, hsize, M]
  generalize (200 + i * 150 + o * 100 + i * 100 + m) % 18446744073709551616 = s
  generalize p.min_fee_b * s = t
  omega

lemma tableLookup_tableInsert_self (t : List (String × TxRecord)) (k : String)
    (v : TxRecord) : tableLookup (tableInsert t k v) k = some v := by
  induction t with
  | nil => simp [tableInsert, tableLookup]
  | cons kv rest ih =>
    by_cases h : kv.1 = k
    · simp [tableInsert, tableLookup, h]
    · simp [tableInsert, tableLookup, h, ih]

lemma tableLookup_tableUpdate (t : List (String × TxRecord)) (k : String)
    (f : TxRecord → TxRecord) :
    tableLookup (tableUpdate t k f) k = (tableLookup t k).map f := by
  induction t with
  | nil => simp [tableUpdate, tableLookup]
  | cons kv rest ih =>
    by_cases h : kv.1 = k
    · simp [tableUpdate, tableLookup, h]
    · simp only [tableUpdate, List.map_cons, if_neg h, tableLookup]
      exact ih

/-! ### Claims about the fee estimator -/

/-- Claim C5: `estimate_fee(num_inputs, num_outputs, metadata_size)` equals
`fee_const_a + fee_const_b * size_bytes` with `size_bytes = base_overhead +
num_inputs*input_cost + num_outputs*output_cost + num_inputs*witness_cost +
metadata_size`, the constants coming from the configured protocol
parameters; it is a pure function of its arguments and those parameters
(both sides are functions of exactly `p`, `num_inputs`, `num_outputs`,
`metadata_size`). -/
theorem estimate_fee_formula (p : FeeParameters)
    (num_inputs num_outputs metadata_size : Nat) :
    estimate_fee p num_inputs num_outputs metadata_size =
      spec_fee p num_inputs num_outputs metadata_size := by
  rw [estimate_fee_eq]
  simp only [spec_fee, spec_size_bytes]

/-- Claim C8, counterexample: with the default fee parameters and the
argument-wise order `(0,0,0) ≤ (0,0, 2^64 - 200)`, the fee strictly
decreases, because the `size_t` size computation wraps modulo `2^64`. -/
theorem estimate_fee_monotonicity_cex :
    (0:Nat) ≤ 0 ∧ (0:Nat) ≤ 0 ∧ (0:Nat) ≤ M - 200 ∧
    estimate_fee defaultFeeParameters 0 0 (M - 200) <
      estimate_fee defaultFeeParameters 0 0 0 := by decide

/-- Claim C8, amended: fee estimation is monotone in each argument as long
as the linear fee computation does not overflow 64-bit arithmetic at the
larger argument triple. -/
theorem estimate_fee_monotone_of_no_overflow (p : FeeParameters)
    (i1 o1 m1 i2 o2 m2 : Nat) (hi : i1 ≤ i2) (ho : o1 ≤ o2) (hm : m1 ≤ m2)
    (hbound : p.min_fee_a + p.min_fee_b *
      (200 + i2 * 150 + o2 * 100 + i2 * 100 + m2) < M) :
    estimate_fee p i1 o1 m1 ≤ estimate_fee p i2 o2 m2 := by
  rw [estimate_fee_eq, estimate_fee_eq]
  set S1 := 200 + i1 * 150 + o1 * 100 + i1 * 100 + m1 with hS1
  set S2 := 200 + i2 * 150 + o2 * 100 + i2 * 100 + m2 with hS2
  have hS : S1 ≤ S2 := by omega
  rcases Nat.eq_zero_or_pos p.min_fee_b with hb | hb
  · simp [hb]
  · have h1 : p.min_fee_b * S2 < M :=
      lt_of_le_of_lt (Nat.le_add_left (p.min_fee_b * S2) p.min_fee_a) hbound
    have h2 : S2 < M := lt_of_le_of_lt (Nat.le_mul_of_pos_left S2 hb) h1
    have h3 : S1 < M := lt_of_le_of_lt hS h2
    have h4 : p.min_fee_b * S1 ≤ p.min_fee_b * S2 :=
      Nat.mul_le_mul (Nat.le_refl _) hS
    rw [Nat.mod_eq_of_lt h2, Nat.mod_eq_of_lt h3,
      Nat.mod_eq_of_lt hbound,
      Nat.mod_eq_of_lt (lt_of_le_of_lt (Nat.add_le_add_left h4 _) hbound)]
    exact Nat.add_le_add_left h4 _

/-- Witness for the amended claim C8 at a concrete, overflow-free input. -/
theorem estimate_fee_monotone_of_no_overflow_witness :
    (1:Nat) ≤ 2 ∧
    estimate_fee defaultFeeParameters 1 1 0 ≤
      estimate_fee defaultFeeParameters 2 2 10 :=
  ⟨by decide, estimate_fee_monotone_of_no_overflow defaultFeeParameters
    1 1 0 2 2 10 (by decide) (by decide) (by decide) (by decide)⟩

/-! ### Claims about the lifecycle operations -/

/-- Claim C10: a transaction id with no entry in the transaction table is
reported as `FAILED` by `get_transaction_status`. -/
theorem unknown_tx_status_failed (table : List (String × TxRecord))
    (tx_id : String) (now : Nat) (h : tableLookup table tx_id = none) :
    (get_transaction_status table tx_id now).1 = .FAILED := by
  simp [get_transaction_status, h]

/-- Witness for claim C10 on the empty table. -/
theorem unknown_tx_status_failed_witness :
    tableLookup ([] : List (String × TxRecord)) "tx" = none ∧
    (get_transaction_status ([] : List (String × TxRecord)) "tx" 0).1 =
      .FAILED :=
  ⟨rfl, unknown_tx_status_failed [] "tx" 0 rfl⟩

/-- Claim C7, counterexample: a rejected submission stores the fixed string
"Network submission failed", not the collaborator's rejection reason (the
mock network interface returns only an empty string on failure and carries
no reason at all), so a rejection "with reason mempool full" can never
leave `error == "mempool full"`. -/
theorem submit_reject_reason_cex :
    tableLookup (submit_transaction [] "t" ⟨.PENDING, 0, 0, ""⟩ 5 false).2
        "t" = some ⟨.FAILED, 5, 0, "Network submission failed"⟩ ∧
    "Network submission failed" ≠ "mempool full" := by decide

/-- Claim C7, amended: on network rejection `submit_transaction` sets the
stored status to `FAILED` and the error field to the constant string
"Network submission failed"; the collaborator's interface
(`submit_to_network`) communicates no rejection reason. -/
theorem submit_reject_sets_fixed_error (table : List (String × TxRecord))
    (tx_id : String) (tx : TxRecord) (now : Nat) :
    tableLookup (submit_transaction table tx_id tx now false).2 tx_id =
      some ⟨.FAILED, now, tx.confirmed_timestamp,
        "Network submission failed"⟩ := by
  simp [submit_transaction, tableLookup_tableUpdate,
    tableLookup_tableInsert_self]

/-- Claim C3, counterexample: re-submitting a transaction whose stored
status is terminal (`CANCELLED`) overwrites the stored record back to
`SUBMITTED` — a transition outside the four legal ones, not rejected, and
the stored status does not stay unchanged. -/
theorem resubmit_overwrites_terminal_cex :
    (tableLookup (submit_transaction [("t", ⟨.CANCELLED, 0, 0, ""⟩)] "t"
        ⟨.CANCELLED, 0, 0, ""⟩ 10 true).2 "t").map TxRecord.status =
      some .SUBMITTED ∧
    TransactionStatus.CANCELLED ≠ TransactionStatus.SUBMITTED := by decide

/-- Claim C3, amended: `cancel_transaction` succeeds exactly from `PENDING`
(giving `PENDING → CANCELLED`) and otherwise rejects, leaving the table
unchanged (in particular for a `SUBMITTED` transaction);
`get_transaction_status` changes a stored status only from `SUBMITTED` (to
`CONFIRMED`); but `submit_transaction` does not guard the prior state: it
unconditionally stores the transaction as `SUBMITTED` (`FAILED` on
rejection), so a terminal stored status can be overwritten by
re-submission. -/
theorem lifecycle_transition_characterization
    (table : List (String × TxRecord)) (tx_id : String) :
    (∀ r, tableLookup table tx_id = some r → r.status ≠ .PENDING →
      cancel_transaction table tx_id = (false, table)) ∧
    (tableLookup table tx_id = none →
      cancel_transaction table tx_id = (false, table)) ∧
    (∀ r, tableLookup table tx_id = some r → r.status = .PENDING →
      (cancel_transaction table tx_id).1 = true ∧
      (tableLookup (cancel_transaction table tx_id).2 tx_id).map
        TxRecord.status = some .CANCELLED) ∧
    (∀ r now, tableLookup table tx_id = some r → r.status ≠ .SUBMITTED →
      get_transaction_status table tx_id now = (r.status, table)) ∧
    (∀ tx now accepted,
      (tableLookup (submit_transaction table tx_id tx now accepted).2
        tx_id).map TxRecord.status =
        some (if accepted then .SUBMITTED else .FAILED)) := by
  refine ⟨?_, ?_, ?_, ?_, ?_⟩
  · intro r h hne
    simp [cancel_transaction, h, hne]
  · intro h
    simp [cancel_transaction, h]
  · intro r h hp
    simp [cancel_transaction, h, hp, tableLookup_tableUpdate]
  · intro r now h hne
    simp [get_transaction_status, h, hne]
  · intro tx now accepted
    cases accepted <;>
      simp [submit_transaction, tableLookup_tableInsert_self,
        tableLookup_tableUpdate]

/-- Witness for the amended claim C3 at concrete tables: a `SUBMITTED`
transaction cannot be cancelled, a `PENDING` one can, and submission
stores `SUBMITTED` unconditionally. -/
theorem lifecycle_transition_characterization_witness :
    cancel_transaction [("s", ⟨.SUBMITTED, 0, 0, ""⟩)] "s" =
      (false, [("s", ⟨.SUBMITTED, 0, 0, ""⟩)]) ∧
    (cancel_transaction [("p", ⟨.PENDING, 0, 0, ""⟩)] "p").1 = true ∧
    (tableLookup (submit_transaction [("p", ⟨.PENDING, 0, 0, ""⟩)] "p"
        ⟨.PENDING, 0, 0, ""⟩ 3 true).2 "p").map TxRecord.status =
      some .SUBMITTED := by
  refine ⟨?_, ?_, ?_⟩
  · exact (lifecycle_transition_characterization
      [("s", ⟨.SUBMITTED, 0, 0, ""⟩)] "s").1 ⟨.SUBMITTED, 0, 0, ""⟩
      (by decide) (by decide)
  · exact ((lifecycle_transition_characterization
      [("p", ⟨.PENDING, 0, 0, ""⟩)] "p").2.2.1 ⟨.PENDING, 0, 0, ""⟩
      (by decide) (by decide)).1
  · have h := (lifecycle_transition_characterization
      [("p", ⟨.PENDING, 0, 0, ""⟩)] "p").2.2.2.2 ⟨.PENDING, 0, 0, ""⟩ 3 true
    simpa using h

/-! ### Helper lemmas about the token accumulator and the selection loop -/

lemma M_pos : 0 < M := by decide

lemma lookupToken_eq_zero_of_not_mem (ts : List (String × Nat)) (k : String)
    (h : k ∉ ts.map Prod.fst) : lookupToken ts k = 0 := by
  induction ts with
  | nil => rfl
  | cons kv rest ih =>
    simp only [List.map_cons, List.mem_cons] at h
    push_neg at h
    have hne : ¬kv.1 = k := fun hh => h.1 hh.symm
    simp only [lookupToken, if_neg hne]
    exact ih h.2

lemma lookupToken_lt_of_bounded (ts : List (String × Nat)) (k : String)
    (h : ∀ kv ∈ ts, kv.2 < M) : lookupToken ts k < M := by
  induction ts with
  | nil => exact M_pos
  | cons kv rest ih =>
    simp only [lookupToken]
    by_cases hk : kv.1 = k
    · simpa [hk] using h kv (List.mem_cons_self _ _)
    · simp only [if_neg hk]
      exact ih fun kv2 hkv2 => h kv2 (List.mem_cons_of_mem _ hkv2)

lemma addToken_bounded (ts : List (String × Nat)) (k : String) (v : Nat)
    (h : ∀ kv ∈ ts, kv.2 < M) :
    ∀ kv ∈ addToken ts k v, kv.2 < M := by
  induction ts with
  | nil =>
    intro kv hkv
    simp only [addToken, List.mem_singleton] at hkv
    subst hkv
    exact Nat.mod_lt _ M_pos
  | cons kv0 rest ih =>
    intro kv hkv
    simp only [addToken] at hkv
    by_cases h0 : kv0.1 = k
    · rw [if_pos h0] at hkv
      rcases List.mem_cons.mp hkv with h1 | h1
      · subst h1; exact Nat.mod_lt _ M_pos
      · exact h kv (List.mem_cons_of_mem _ h1)
    · rw [if_neg h0] at hkv
      rcases List.mem_cons.mp hkv with h1 | h1
      · rw [h1]; exact h kv0 (List.mem_cons_self _ _)
      · exact ih (fun kv2 hkv2 => h kv2 (List.mem_cons_of_mem _ hkv2)) kv h1

lemma lookupToken_addToken (ts : List (String × Nat)) (k1 k : String)
    (v : Nat) :
    lookupToken (addToken ts k1 v) k =
      if k = k1 then (lookupToken ts k + v) % M else lookupToken ts k := by
  induction ts with
  | nil =>
    simp only [addToken, lookupToken]
    by_cases h : k = k1
    · subst h; simp
    · rw [if_neg (fun hh => h hh.symm), if_neg h]
  | cons kv rest ih =>
    simp only [addToken]
    by_cases h1 : kv.1 = k1
    · rw [if_pos h1]
      by_cases h2 : k = k1
      · subst h2
        simp [lookupToken, h1]
      · have hk1k : ¬k1 = k := fun hh => h2 hh.symm
        have hkv1 : ¬kv.1 = k := by rw [h1]; exact hk1k
        simp only [lookupToken, if_neg hk1k, if_neg h2, if_neg hkv1]
    · rw [if_neg h1]
      by_cases h2 : kv.1 = k
      · have hk1 : ¬k = k1 := fun hh => h1 (h2.trans hh)
        simp [lookupToken, h2, hk1]
      · simp only [lookupToken, if_neg h2]
        exact ih

lemma lookupToken_addTokens (us ts : List (String × Nat)) (k : String)
    (hus : (us.map Prod.fst).Nodup) (hts : ∀ kv ∈ ts, kv.2 < M) :
    lookupToken (addTokens ts us) k =
      (lookupToken ts k + lookupToken us k) % M := by
  induction us generalizing ts with
  | nil =>
    simp only [addTokens, List.foldl_nil, lookupToken, Nat.add_zero]
    exact (Nat.mod_eq_of_lt (lookupToken_lt_of_bounded ts k hts)).symm
  | cons kv0 rest ih =>
    simp only [List.map_cons, List.nodup_cons] at hus
    have step : addTokens ts (kv0 :: rest) =
        addTokens (addToken ts kv0.1 kv0.2) rest := rfl
    rw [step, ih (addToken ts kv0.1 kv0.2)
      hus.2 (addToken_bounded ts kv0.1 kv0.2 hts)]
    rw [lookupToken_addToken]
    by_cases h : k = kv0.1
    · rw [if_pos h]
      have hrest : lookupToken rest k = 0 := by
        rw [h]; exact lookupToken_eq_zero_of_not_mem rest kv0.1 hus.1
      have hhead : lookupToken (kv0 :: rest) k = kv0.2 := by
        simp [lookupToken, if_pos h.symm]
      rw [hrest, hhead]
      generalize lookupToken ts k + kv0.2 = a
      simp only [M]
      omega
    · rw [if_neg h]
      have hhead : lookupToken (kv0 :: rest) k = lookupToken rest k := by
        have hne : ¬kv0.1 = k := fun hh => h hh.symm
        simp [lookupToken, if_neg hne]
      rw [hhead]

lemma addTokens_bounded (us ts : List (String × Nat))
    (hts : ∀ kv ∈ ts, kv.2 < M) :
    ∀ kv ∈ addTokens ts us, kv.2 < M := by
  induction us generalizing ts with
  | nil => exact hts
  | cons kv0 rest ih =>
    exact ih (addToken ts kv0.1 kv0.2)
      (addToken_bounded ts kv0.1 kv0.2 hts)

lemma lookupToken_addTokensOfUtxos (l : List UTXO)
    (ts : List (String × Nat)) (k : String)
    (hl : ∀ u ∈ l, (u.native_tokens.map Prod.fst).Nodup)
    (hts : ∀ kv ∈ ts, kv.2 < M) :
    lookupToken (addTokensOfUtxos ts l) k =
      (lookupToken ts k + tokensSum l k) % M := by
  induction l generalizing ts with
  | nil =>
    simp only [addTokensOfUtxos, List.foldl_nil, tokensSum, List.map_nil,
      List.sum_nil, Nat.add_zero]
    exact (Nat.mod_eq_of_lt (lookupToken_lt_of_bounded ts k hts)).symm
  | cons u rest ih =>
    have step : addTokensOfUtxos ts (u :: rest) =
        addTokensOfUtxos (addTokens ts u.native_tokens) rest := rfl
    rw [step, ih (addTokens ts u.native_tokens)
      (fun u2 hu2 => hl u2 (List.mem_cons_of_mem _ hu2))
      (addTokens_bounded u.native_tokens ts hts)]
    rw [lookupToken_addTokens u.native_tokens ts k
      (hl u (List.mem_cons_self _ _)) hts]
    have hsum : tokensSum (u :: rest) k =
        lookupToken u.native_tokens k + tokensSum rest k := by
      simp [tokensSum]
    rw [hsum]
    generalize lookupToken ts k = a
    generalize lookupToken u.native_tokens k = b
    generalize tokensSum rest k = c
    simp only [M]
    omega

lemma selectLoop_subset (target : Nat) (required : List (String × Nat)) :
    ∀ (cands : List UTXO) (acc : Nat) (accTok : List (String × Nat)),
    ∀ x ∈ selectLoop target required cands acc accTok, x ∈ cands := by
  intro cands
  induction cands with
  | nil => intro acc accTok x hx; simp [selectLoop] at hx
  | cons u rest ih =>
    intro acc accTok x hx
    simp only [selectLoop] at hx
    split at hx
    · simp only [List.mem_singleton] at hx
      exact hx ▸ List.mem_cons_self _ _
    · rcases List.mem_cons.mp hx with h1 | h1
      · exact h1 ▸ List.mem_cons_self _ _
      · exact List.mem_cons_of_mem _ (ih _ _ x h1)

lemma selectLoop_length_pos (target : Nat) (required : List (String × Nat))
    (cands : List UTXO) (acc : Nat) (accTok : List (String × Nat))
    (h : cands ≠ []) :
    0 < (selectLoop target required cands acc accTok).length := by
  cases cands with
  | nil => exact absurd rfl h
  | cons u rest =>
    simp only [selectLoop]
    split <;> simp

lemma selectLoop_break (target : Nat) (required : List (String × Nat)) :
    ∀ (cands : List UTXO) (acc : Nat) (accTok : List (String × Nat)),
    (selectLoop target required cands acc accTok).length < cands.length →
    target ≤ (acc + baseSum (selectLoop target required cands acc accTok)) % M ∧
    ∀ kv ∈ required, kv.2 ≤ lookupToken
      (addTokensOfUtxos accTok (selectLoop target required cands acc accTok))
      kv.1 := by
  intro cands
  induction cands with
  | nil => intro acc accTok h; simp [selectLoop] at h
  | cons u rest ih =>
    intro acc accTok h
    by_cases hcond : target ≤ (acc + u.amount_lovelace) % M ∧
        tokensSufficient (addTokens accTok u.native_tokens) required = true
    · simp only [selectLoop, if_pos hcond]
      constructor
      · have hb : baseSum [u] = u.amount_lovelace := by simp [baseSum]
        rw [hb]
        exact hcond.1
      · intro kv hkv
        have hall := List.all_eq_true.mp hcond.2 kv hkv
        exact of_decide_eq_true hall
    · simp only [selectLoop, if_neg hcond] at h ⊢
      have hlen : (selectLoop target required rest
          ((acc + u.amount_lovelace) % M)
          (addTokens accTok u.native_tokens)).length < rest.length := by
        simpa using h
      have hres := ih ((acc + u.amount_lovelace) % M)
        (addTokens accTok u.native_tokens) hlen
      constructor
      · have hbase : baseSum (u :: selectLoop target required rest
            ((acc + u.amount_lovelace) % M)
            (addTokens accTok u.native_tokens)) =
            u.amount_lovelace + baseSum (selectLoop target required rest
              ((acc + u.amount_lovelace) % M)
              (addTokens accTok u.native_tokens)) := by
          simp [baseSum]
        rw [hbase]
        have h1 := hres.1
        generalize baseSum (selectLoop target required rest
          ((acc + u.amount_lovelace) % M)
          (addTokens accTok u.native_tokens)) = c at h1 ⊢
        generalize u.amount_lovelace = b at h1 ⊢
        simp only [M] at h1 ⊢
        omega
      · exact hres.2

lemma insertSorted_perm (before : UTXO → UTXO → Bool) (u : UTXO)
    (l : List UTXO) : (insertSorted before u l).Perm (u :: l) := by
  induction l with
  | nil => exact List.Perm.refl _
  | cons v rest ih =>
    simp only [insertSorted]
    split
    · exact List.Perm.refl _
    · exact (List.Perm.cons v ih).trans (List.Perm.swap u v rest)

lemma sortBy_perm (before : UTXO → UTXO → Bool) (l : List UTXO) :
    (sortBy before l).Perm l := by
  induction l with
  | nil => exact List.Perm.refl _
  | cons u rest ih =>
    exact (insertSorted_perm before u (sortBy before rest)).trans
      (List.Perm.cons u ih)

lemma sortCandidates_perm (strategy : UTXOSelectionStrategy)
    (shuffle : List UTXO → List UTXO) (candidates : List UTXO)
    (hsh : (shuffle candidates).Perm candidates) :
    (sortCandidates strategy shuffle candidates).Perm candidates := by
  cases strategy with
  | LARGEST_FIRST => exact sortBy_perm _ _
  | SMALLEST_FIRST => exact sortBy_perm _ _
  | RANDOM => exact hsh
  | OPTIMAL_FEE => exact sortBy_perm _ _

/-! ### Claims about the UTXO selector -/

/-- Claim C4: for every strategy (the shuffle of `RANDOM` being an arbitrary
permutation), if `select_utxos` returns fewer UTXOs than were available —
i.e. the loop broke before exhausting the candidate list — then the
selected base values sum to at least the target and every required token
amount is covered.  The token maps of the UTXOs have distinct keys, as
`std::map` guarantees. -/
theorem select_utxos_sufficient (strategy : UTXOSelectionStrategy)
    (shuffle : List UTXO → List UTXO) (available_utxos : List UTXO)
    (target_amount : Nat) (required_tokens : List (String × Nat))
    (hsh : (shuffle available_utxos).Perm available_utxos)
    (hnd : ∀ u ∈ available_utxos, (u.native_tokens.map Prod.fst).Nodup)
    (hlen : (select_utxos strategy shuffle available_utxos target_amount
      required_tokens).length < available_utxos.length) :
    target_amount ≤ baseSum (select_utxos strategy shuffle available_utxos
      target_amount required_tokens) ∧
    ∀ kv ∈ required_tokens, kv.2 ≤ tokensSum
      (select_utxos strategy shuffle available_utxos target_amount
        required_tokens) kv.1 := by
  have hperm := sortCandidates_perm strategy shuffle available_utxos hsh
  have hclen : (sortCandidates strategy shuffle available_utxos).length =
      available_utxos.length := hperm.length_eq
  have hlen2 : (selectLoop target_amount required_tokens
      (sortCandidates strategy shuffle available_utxos) 0 []).length <
      (sortCandidates strategy shuffle available_utxos).length := by
    rw [hclen]; exact hlen
  have hres := selectLoop_break target_amount required_tokens
    (sortCandidates strategy shuffle available_utxos) 0 [] hlen2
  constructor
  · calc target_amount
      ≤ (0 + baseSum (selectLoop target_amount required_tokens
          (sortCandidates strategy shuffle available_utxos) 0 [])) % M :=
        hres.1
    _ ≤ baseSum (select_utxos strategy shuffle available_utxos
          target_amount required_tokens) := by
        rw [Nat.zero_add]
        exact Nat.mod_le _ _
  · intro kv hkv
    have h2 := hres.2 kv hkv
    have hnd2 : ∀ u ∈ selectLoop target_amount required_tokens
        (sortCandidates strategy shuffle available_utxos) 0 [],
        (u.native_tokens.map Prod.fst).Nodup := by
      intro u hu
      exact hnd u (hperm.mem_iff.mp
        (selectLoop_subset target_amount required_tokens _ 0 [] u hu))
    rw [lookupToken_addTokensOfUtxos _ [] kv.1 hnd2 (by simp)] at h2
    calc kv.2
      ≤ (lookupToken [] kv.1 + tokensSum (selectLoop target_amount
          required_tokens (sortCandidates strategy shuffle available_utxos)
          0 []) kv.1) % M := h2
    _ ≤ tokensSum (select_utxos strategy shuffle available_utxos
          target_amount required_tokens) kv.1 := by
        simp only [lookupToken, Nat.zero_add]
        exact Nat.mod_le _ _

/-- Witness for claim C4 at a concrete input: two UTXOs of 20 and 5
lovelace, target 10, largest-first — the selector stops after one UTXO and
its value covers the target. -/
theorem select_utxos_sufficient_witness :
    (select_utxos .LARGEST_FIRST id [wUtxoA, wUtxoB] 10 []).length < 2 ∧
    10 ≤ baseSum (select_utxos .LARGEST_FIRST id [wUtxoA, wUtxoB] 10 []) :=
  ⟨by decide, (select_utxos_sufficient .LARGEST_FIRST id [wUtxoA, wUtxoB]
    10 [] (List.Perm.refl _) (by decide) (by decide)).1⟩

/-- Claim C9: with `target_value = 0` and no required tokens, the selector
still returns at least one UTXO whenever one is available (the loop pushes
the first candidate before testing sufficiency). -/
theorem select_utxos_zero_target_nonempty (strategy : UTXOSelectionStrategy)
    (shuffle : List UTXO → List UTXO) (available_utxos : List UTXO)
    (hne : available_utxos ≠ [])
    (hsh : (shuffle available_utxos).Perm available_utxos) :
    1 ≤ (select_utxos strategy shuffle available_utxos 0 []).length := by
  have hperm := sortCandidates_perm strategy shuffle available_utxos hsh
  have hcne : sortCandidates strategy shuffle available_utxos ≠ [] := by
    intro hnil
    exact hne (List.eq_nil_of_length_eq_zero (by
      rw [← hperm.length_eq, hnil, List.length_nil]))
  exact selectLoop_length_pos 0 [] _ 0 [] hcne

/-- Witness for claim C9 on a one-element UTXO list. -/
theorem select_utxos_zero_target_nonempty_witness :
    [wUtxoA] ≠ [] ∧
    1 ≤ (select_utxos .SMALLEST_FIRST id [wUtxoA] 0 []).length :=
  ⟨by decide, select_utxos_zero_target_nonempty .SMALLEST_FIRST id [wUtxoA]
    (by decide) (List.Perm.refl _)⟩

/-! ### Helper lemmas for the payment builder -/

lemma foldl_add_mod (l : List UTXO) :
    ∀ acc, acc < M →
    l.foldl (fun s u => (s + u.amount_lovelace) % M) acc =
      (acc + baseSum l) % M := by
  induction l with
  | nil =>
    intro acc hacc
    simp [baseSum, Nat.mod_eq_of_lt hacc]
  | cons u rest ih =>
    intro acc hacc
    rw [List.foldl_cons, ih _ (Nat.mod_lt _ M_pos)]
    have hb : baseSum (u :: rest) = u.amount_lovelace + baseSum rest := by
      simp [baseSum]
    rw [hb]
    generalize baseSum rest = c
    generalize u.amount_lovelace = b
    simp only [M]
    omega

lemma sub64_of_le (a b : Nat) (hba : b ≤ a) (haM : a < M) :
    sub64 a b = a - b := by
  simp only [sub64, M] at *
  omega

lemma inputBaseSum_map_mk (l : List UTXO) :
    inputBaseSum (l.map fun u =>
      TransactionInput.mk u.tx_hash u.output_index u) = baseSum l := by
  simp only [inputBaseSum, baseSum, List.map_map]
  rfl

/-! ### Claims about the transaction builder -/

/-- Claim C1, counterexample: a payment of 1000000 lovelace from a single
1200000-lovelace UTXO carrying 7 units of "policy1.token1" builds a
transaction whose input base values sum to 1200000 while its output base
values plus fee sum to 1183981 (the 16019 lovelace of computed change are
below `min_utxo` and are silently dropped from the outputs without being
added to the fee), and whose inputs carry 7 units of the asset while its
outputs carry 0. -/
theorem payment_conservation_cex :
    (create_payment_transaction defaultFeeParameters .LARGEST_FIRST id
      [cexUtxoTok] "addr_from" "addr_to" 1000000).map
        (fun tx => (inputBaseSum tx.inputs,
          outputBaseSum tx.outputs + tx.fee,
          inputTokenSum tx.inputs "policy1.token1",
          outputTokenSum tx.outputs "policy1.token1")) =
      some (1200000, 1183981, 7, 0) ∧
    (1200000 : Nat) ≠ 1183981 ∧ (7 : Nat) ≠ 0 := by decide

/-- Claim C1, amended: for `create_payment_transaction`, base-value
conservation `sum(inputs) = sum(outputs) + fee` does hold whenever the
built transaction actually carries a change output (two outputs) and the
selected input total neither underflows (it covers `amount + fee`) nor
overflows 64 bits.  (The counterexample shows the unrestricted claim
fails: dropped dust change and input-only native tokens both break
conservation, and `create_smart_contract_transaction` additionally adds
50000 to the fee without touching the outputs.) -/
theorem payment_conservation_with_change (p : FeeParameters)
    (strategy : UTXOSelectionStrategy) (shuffle : List UTXO → List UTXO)
    (utxos : List UTXO) (from_address to_address : String)
    (amount_lovelace : Nat) (tx : Transaction)
    (hbuild : create_payment_transaction p strategy shuffle utxos
      from_address to_address amount_lovelace = some tx)
    (hchange : tx.outputs.length = 2)
    (htot : inputBaseSum tx.inputs < M)
    (hge : amount_lovelace + tx.fee ≤ inputBaseSum tx.inputs) :
    inputBaseSum tx.inputs = outputBaseSum tx.outputs + tx.fee := by
  simp only [create_payment_transaction] at hbuild
  split at hbuild
  · exact absurd hbuild (by simp)
  · have htx := Option.some.inj hbuild
    subst htx
    simp only [inputBaseSum_map_mk, List.length_map] at htot hge hchange ⊢
    set S := select_utxos strategy shuffle utxos
      ((amount_lovelace + 200000) % M) [] with hS
    set F := estimate_fee p S.length 2 0 with hF
    have hfold : S.foldl (fun s u => (s + u.amount_lovelace) % M) 0 =
        baseSum S := by
      rw [foldl_add_mod S 0 M_pos, Nat.zero_add, Nat.mod_eq_of_lt htot]
    rw [hfold] at hchange ⊢
    by_cases hch : p.min_utxo <
        sub64 (sub64 (baseSum S) amount_lovelace) F
    · simp only [if_pos hch] at hchange ⊢
      have h1 : sub64 (baseSum S) amount_lovelace =
          baseSum S - amount_lovelace :=
        sub64_of_le _ _ (le_trans (Nat.le_add_right _ _) hge) htot
      have h2 : sub64 (baseSum S - amount_lovelace) F =
          baseSum S - amount_lovelace - F :=
        sub64_of_le _ _ (by omega) (by omega)
      rw [h1, h2]
      simp only [outputBaseSum, List.map_cons, List.map_nil, List.sum_cons,
        List.sum_nil]
      omega
    · simp only [if_neg hch] at hchange
      simp at hchange

/-- Witness for the amended claim C1: a 1-ADA payment from a 12-ADA UTXO
emits a change output and conserves value exactly. -/
theorem payment_conservation_with_change_witness :
    create_payment_transaction defaultFeeParameters .LARGEST_FIRST id
      [wUtxoBig] "addr_w" "addr_to" 1000000 = some wTx ∧
    inputBaseSum wTx.inputs = outputBaseSum wTx.outputs + wTx.fee :=
  ⟨by decide, payment_conservation_with_change defaultFeeParameters
    .LARGEST_FIRST id [wUtxoBig] "addr_w" "addr_to" 1000000 wTx
    (by decide) (by decide) (by decide) (by decide)⟩

/-- Claim C2 (code bug): on a candidate list whose total cannot reach the
target, `select_utxos` exhausts the list and returns it whole (non-empty),
and `create_payment_transaction` — which only checks `selected.empty()` —
still returns a transaction instead of failing with insufficient funds. -/
theorem insufficient_selection_still_builds :
    select_utxos .LARGEST_FIRST id [cexUtxoSmall] 1200000 [] =
      [cexUtxoSmall] ∧
    baseSum [cexUtxoSmall] < 1200000 ∧
    (create_payment_transaction defaultFeeParameters .LARGEST_FIRST id
      [cexUtxoSmall] "addr_from" "addr_to" 1000000).isSome = true := by
  decide

/-- Claim C6 (code bug): building a 1000000-lovelace payment from a single
100000-lovelace UTXO (total 100000 < amount + fee = 1183981) does not fail:
the unchecked `uint64_t` change subtraction wraps to
`2^64 - 1083981`, which passes the `change > min_utxo` test, so the
builder emits a bogus change output of that wrapped amount. -/
theorem change_underflow_wraps :
    100000 < 1000000 + 183981 ∧
    (create_payment_transaction defaultFeeParameters .LARGEST_FIRST id
      [cexUtxoSmall] "addr_from" "addr_to" 1000000).map
        (fun tx => tx.outputs.map (fun o => o.amount_lovelace)) =
      some [1000000, M - 1083981] := by decide

end CardanoIoT
